import Mathlib

/-!
Shallow embedding of `src/main.rs` of the docker_tui repository: a terminal
dashboard that lists docker containers, and stops or prunes them.

The embedding models:
* `ContainerInfo` — the serde-decoded record (struct `ContainerInfo`, lines 18-34);
* the record decoder — `serde_json::from_str::<ContainerInfo>` applied to each
  line of captured stdout (lines 258-262).  The JSON surface syntax handled by
  the external `serde_json` library is abstracted by the inductive `Json`
  (a parsed JSON value) and `RawLine` (a stdout line: either it parses to some
  JSON value, or it is not valid JSON at all); the schema-driven field decoding
  generated by `#[derive(Deserialize)]` with the `#[serde(rename)]` attributes
  is modelled concretely in `decodeContainerInfo`;
* the docker subprocess boundary — `DockerEnv.run` maps the argument list given
  to `Command::new("docker")` to the outcome of `.output().await`:
  `Except.error e` models a spawn failure (`Err(e)`), `Except.ok` models a
  completed process (`Ok(output)`) with its exit code and captured stdout
  (already split into lines, each a `RawLine`);
* `get_docker_ps_output` (lines 249-265) — note the source's
  `.expect("Failed to execute docker ps")`, which panics on a spawn failure;
  the panic is modelled as `none`;
* the application state and the body of `run_app`'s loop (lines 73-244):
  `handleKey` is the key dispatch (lines 163-243), `runIteration` one loop
  iteration (refresh + draw + at most one key, lines 80-243), `runSteps` a
  sequence of iterations, `applyKeys` a sequence of dispatched keys.
-/

/-- A parsed JSON value (the output of the external JSON parser). -/
inductive Json where
  | null : Json
  | bool (b : Bool) : Json
  | num (n : Int) : Json
  | str (s : String) : Json
  | arr (elems : List Json) : Json
  | obj (fields : List (String × Json)) : Json
deriving Repr

/-- One line of captured stdout: either it parses as a JSON value, or it is
not valid JSON (`serde_json::from_str` then fails before any field decoding). -/
inductive RawLine where
  | json (v : Json) : RawLine
  | notJson (text : String) : RawLine
deriving Repr

/-- The struct `ContainerInfo` (main.rs lines 18-34): seven plain string
fields captured from the renamed JSON keys. -/
structure ContainerInfo where
  id : String
  image : String
  command : String
  created_at : String
  status : String
  ports : String
  names : String
deriving Repr, DecidableEq

/-- Field lookup as performed by the serde-derived deserializer: the value is
produced only when the key occurs exactly once in the object and its value is
a JSON string (a missing field, a duplicate field, or a non-string value all
make the whole record fail to decode). -/
def getStrField (fields : List (String × Json)) (key : String) : Option String :=
  match fields.filter (fun p => p.fst == key) with
  | [(_, Json.str s)] => some s
  | _ => none

/-- The `#[derive(Deserialize)]` schema decoding of `ContainerInfo`: the value
must be a JSON object supplying all seven renamed fields as strings; unknown
extra fields are ignored (serde's default). -/
def decodeContainerInfo : Json → Option ContainerInfo
  | Json.obj fields => do
      let id ← getStrField fields "ID"
      let image ← getStrField fields "Image"
      let command ← getStrField fields "Command"
      let created_at ← getStrField fields "CreatedAt"
      let status ← getStrField fields "Status"
      let ports ← getStrField fields "Ports"
      let names ← getStrField fields "Names"
      pure { id := id, image := image, command := command,
             created_at := created_at, status := status,
             ports := ports, names := names }
  | _ => none

/-- `serde_json::from_str::<ContainerInfo>(line)` on one stdout line
(main.rs line 261): a line that is not valid JSON fails, a parsed value is
decoded against the schema. -/
def serde_from_str : RawLine → Option ContainerInfo
  | RawLine.json v => decodeContainerInfo v
  | RawLine.notJson _ => none

/-- `stdout.lines().filter_map(|line| serde_json::from_str(line).ok()).collect()`
(main.rs lines 259-262). -/
def decodeLines (lines : List RawLine) : List ContainerInfo :=
  lines.filterMap serde_from_str

/-- Outcome of a completed docker process (`Ok(output)` from
`Command::output().await`): its exit code and its stdout, already split into
lines. -/
structure CmdOutput where
  exit_code : Int
  stdout : List RawLine

/-- The docker subprocess boundary: maps the argument list handed to
`Command::new("docker")` to the result of `.output().await`.
`Except.error e` is a spawn failure (`Err(e)` with `e` rendered by `{}`),
`Except.ok out` a completed process regardless of its exit code. -/
structure DockerEnv where
  run : List String → Except String CmdOutput

/-- Arguments built by `get_docker_ps_output` (main.rs lines 250-255):
`ps`, optionally `-a`, then `--format {{json .}}`. -/
def dockerPsArgs (all : Bool) : List String :=
  ["ps"] ++ (if all then ["-a"] else []) ++ ["--format", "\x7b\x7bjson .\x7d\x7d"]

/-- `get_docker_ps_output(all)` (main.rs lines 249-265).  The source applies
`.expect("Failed to execute docker ps")` to the spawn result, so a spawn
failure panics: this is modelled as `none`.  On a completed process the stdout
lines are decoded and the failures silently dropped. -/
def get_docker_ps_output (env : DockerEnv) (all : Bool) : Option (List ContainerInfo) :=
  match env.run (dockerPsArgs all) with
  | Except.error _ => none
  | Except.ok output => some (decodeLines output.stdout)

/-- The mutable local state of `run_app` (main.rs lines 73-78). -/
structure AppState where
  selected_command : Nat
  selected_container : Nat
  containers : List ContainerInfo
  all_flag : Bool
  status_message : String
deriving Repr, DecidableEq

/-- `let commands = vec!["ps", "ps -a", "stop", "prune"]` (main.rs line 73). -/
def commands : List String := ["ps", "ps -a", "stop", "prune"]

/-- The initial values of `run_app`'s state (main.rs lines 74-78). -/
def initialState : AppState :=
  { selected_command := 0
    selected_container := 0
    containers := []
    all_flag := false
    status_message := "" }

/-- The key events the dispatch distinguishes (main.rs lines 164-242);
`other` covers every non-character key that falls into the final `_` arm. -/
inductive KeyCode where
  | char (c : Char) : KeyCode
  | down : KeyCode
  | up : KeyCode
  | right : KeyCode
  | left : KeyCode
  | enter : KeyCode
  | other : KeyCode
deriving Repr, DecidableEq

/-- Result of one step of the loop: continue with a new state, terminate
(`break` on `q`), or panic (the `.expect` in `get_docker_ps_output`). -/
inductive StepResult where
  | next (st : AppState) : StepResult
  | quit : StepResult
  | panicked (msg : String) : StepResult
deriving Repr, DecidableEq

/-- The `KeyCode::Char('s')` handler (main.rs lines 186-199): look up the
selected container; if present, run `docker stop <id>` and set the status
message from the spawn outcome (`Ok(_)` is matched without inspecting the
exit code); if absent, do nothing. -/
def stopShortcutHandler (env : DockerEnv) (st : AppState) : AppState :=
  match st.containers.get? st.selected_container with
  | some container =>
      let container_id := container.id
      match env.run ["stop", container_id] with
      | Except.ok _ =>
          { st with status_message := "Stopped container " ++ container_id }
      | Except.error e =>
          { st with status_message := "Failed to stop container: " ++ e }
  | none => st

/-- The `"stop"` arm of the `KeyCode::Enter` handler (main.rs lines 201-218):
textually the same block as the shortcut handler. -/
def enterStopHandler (env : DockerEnv) (st : AppState) : AppState :=
  match st.containers.get? st.selected_container with
  | some container =>
      let container_id := container.id
      match env.run ["stop", container_id] with
      | Except.ok _ =>
          { st with status_message := "Stopped container " ++ container_id }
      | Except.error e =>
          { st with status_message := "Failed to stop container: " ++ e }
  | none => st

/-- The `"prune"` arm of the `KeyCode::Enter` handler (main.rs lines 219-230):
run `docker system prune -f` and set the status message from the spawn
outcome. -/
def pruneHandler (env : DockerEnv) (st : AppState) : AppState :=
  match env.run ["system", "prune", "-f"] with
  | Except.ok _ => { st with status_message := "System pruned" }
  | Except.error e => { st with status_message := "Failed to prune system: " ++ e }

/-- The key dispatch (main.rs lines 163-243).  `commands[selected_command]`
is modelled with `getD` and default `""`; the default is never taken because
the right/left handlers keep the index below `commands.length` (proved
below). -/
def handleKey (env : DockerEnv) (st : AppState) (key : KeyCode) : StepResult :=
  match key with
  | KeyCode.char c =>
      if c = 'q' then StepResult.quit
      else if c = 's' then StepResult.next (stopShortcutHandler env st)
      else StepResult.next st
  | KeyCode.down =>
      StepResult.next
        (if st.selected_container < st.containers.length - 1 then
          { st with selected_container := st.selected_container + 1 }
        else st)
  | KeyCode.up =>
      StepResult.next
        (if st.selected_container > 0 then
          { st with selected_container := st.selected_container - 1 }
        else st)
  | KeyCode.right =>
      StepResult.next
        { st with selected_command := (st.selected_command + 1) % commands.length }
  | KeyCode.left =>
      StepResult.next
        (if st.selected_command = 0 then
          { st with selected_command := commands.length - 1 }
        else { st with selected_command := st.selected_command - 1 })
  | KeyCode.enter =>
      match commands.getD st.selected_command "" with
      | "stop" => StepResult.next (enterStopHandler env st)
      | "prune" => StepResult.next (pruneHandler env st)
      | "ps" => StepResult.next { st with all_flag := false, selected_container := 0 }
      | "ps -a" => StepResult.next { st with all_flag := true, selected_container := 0 }
      | _ => StepResult.next st
  | KeyCode.other => StepResult.next st

/-- One iteration of `run_app`'s loop (main.rs lines 80-243): refresh the
container list when a listing command is highlighted (panicking if the spawn
fails), draw (no state effect), then dispatch at most one pending key
(`rx.try_recv()` yields `none` when the queue is empty). -/
def runIteration (env : DockerEnv) (st : AppState) (key : Option KeyCode) : StepResult :=
  let cmd := commands.getD st.selected_command ""
  if cmd == "ps" || cmd == "ps -a" then
    match get_docker_ps_output env st.all_flag with
    | none => StepResult.panicked "Failed to execute docker ps"
    | some cs =>
        let st1 := { st with containers := cs }
        match key with
        | none => StepResult.next st1
        | some k => handleKey env st1 k
  else
    match key with
    | none => StepResult.next st
    | some k => handleKey env st k

/-- A sequence of loop iterations; each iteration sees its own docker
environment (the external tool's answers may differ between iterations) and
at most one key. -/
def runSteps : AppState → List (DockerEnv × Option KeyCode) → StepResult
  | st, [] => StepResult.next st
  | st, (env, key) :: rest =>
      match runIteration env st key with
      | StepResult.next st1 => runSteps st1 rest
      | r => r

/-- A sequence of dispatched keys (no refresh in between): folds `handleKey`,
stopping early on quit. -/
def applyKeys (env : DockerEnv) : AppState → List KeyCode → StepResult
  | st, [] => StepResult.next st
  | st, k :: ks =>
      match handleKey env st k with
      | StepResult.next st1 => applyKeys env st1 ks
      | r => r

/-- `p` occurs at the start of `s` (over character lists). -/
def startsWithL : List Char → List Char → Bool
  | [], _ => true
  | _ :: _, [] => false
  | a :: ps, b :: ss => a == b && startsWithL ps ss

/-- `pat` occurs somewhere inside `s` (over character lists). -/
def containsL (pat : List Char) : List Char → Bool
  | [] => startsWithL pat []
  | c :: ss => startsWithL pat (c :: ss) || containsL pat ss

/-- The string `pat` occurs as a contiguous substring of `s`. -/
def strContains (s pat : String) : Bool :=
  containsL pat.toList s.toList

/-- The string `s` starts with `pat`. -/
def strStartsWith (s pat : String) : Bool :=
  startsWithL pat.toList s.toList

/-- The row-highlight invariant stated by the spec: whenever the cached list
is non-empty, the highlighted row index is a valid index into it. -/
def RowInv (st : AppState) : Prop :=
  st.containers ≠ [] → st.selected_container < st.containers.length

/-! Concrete sample data used by counterexamples and witnesses. -/

/-- A well-formed stdout line for a container with identifier `abc123`. -/
def lineA : RawLine := RawLine.json (Json.obj
  [("ID", Json.str "abc123"), ("Image", Json.str "nginx"),
   ("Command", Json.str "nginx -g daemon off;"), ("CreatedAt", Json.str "2024-01-01"),
   ("Status", Json.str "Up 5 minutes"), ("Ports", Json.str "80/tcp"),
   ("Names", Json.str "web")])

/-- A well-formed stdout line for a container with identifier `def456`. -/
def lineB : RawLine := RawLine.json (Json.obj
  [("ID", Json.str "def456"), ("Image", Json.str "redis"),
   ("Command", Json.str "redis-server"), ("CreatedAt", Json.str "2024-01-02"),
   ("Status", Json.str "Up 2 minutes"), ("Ports", Json.str "6379/tcp"),
   ("Names", Json.str "cache")])

/-- The record decoded from `lineA`. -/
def recA : ContainerInfo :=
  { id := "abc123", image := "nginx", command := "nginx -g daemon off;",
    created_at := "2024-01-01", status := "Up 5 minutes", ports := "80/tcp",
    names := "web" }

/-- The record decoded from `lineB`. -/
def recB : ContainerInfo :=
  { id := "def456", image := "redis", command := "redis-server",
    created_at := "2024-01-02", status := "Up 2 minutes", ports := "6379/tcp",
    names := "cache" }

/-- A schema-complete stdout line whose `ID` field is the empty string. -/
def badIdLine : RawLine := RawLine.json (Json.obj
  [("ID", Json.str ""), ("Image", Json.str "nginx"),
   ("Command", Json.str "nginx"), ("CreatedAt", Json.str "2024-01-01"),
   ("Status", Json.str "Up"), ("Ports", Json.str ""),
   ("Names", Json.str "web")])

/-- The record decoded from `badIdLine`: its identifier is empty. -/
def emptyIdRec : ContainerInfo :=
  { id := "", image := "nginx", command := "nginx",
    created_at := "2024-01-01", status := "Up", ports := "",
    names := "web" }

/-- A stdout line that is not valid JSON at all. -/
def malformedLine : RawLine := RawLine.notJson "oops, not json"

/-- A stdout line that is valid JSON but misses most schema fields. -/
def missingFieldLine : RawLine := RawLine.json (Json.obj [("ID", Json.str "xyz")])

/-- A docker environment in which every spawn fails. -/
def envErr : DockerEnv :=
  { run := fun _ => Except.error "No such file or directory (os error 2)" }

/-- A docker environment in which every invocation completes with exit code 0
and empty stdout. -/
def envOkEmpty : DockerEnv :=
  { run := fun _ => Except.ok { exit_code := 0, stdout := [] } }

/-- A docker environment in which every invocation completes with exit code 0
and two well-formed container lines on stdout. -/
def envPs2 : DockerEnv :=
  { run := fun _ => Except.ok { exit_code := 0, stdout := [lineA, lineB] } }

/-- A docker environment in which every invocation completes with exit code 0
and one well-formed container line on stdout. -/
def envPs1 : DockerEnv :=
  { run := fun _ => Except.ok { exit_code := 0, stdout := [lineA] } }

/-- A docker environment in which every invocation completes — spawn
succeeds — but with exit code 1 (the invoked action failed). -/
def envExit1 : DockerEnv :=
  { run := fun _ => Except.ok { exit_code := 1, stdout := [] } }

/-- A state with the `stop` command highlighted, two cached containers and
row 0 highlighted. -/
def stStop : AppState :=
  { selected_command := 2, selected_container := 0,
    containers := [recA, recB], all_flag := false, status_message := "" }

/-- A state with the `stop` command highlighted and an empty container
list. -/
def stEmptyStop : AppState :=
  { selected_command := 2, selected_container := 0,
    containers := [], all_flag := false, status_message := "" }

/-- A state with the `ps` command highlighted. -/
def stPs : AppState :=
  { selected_command := 0, selected_container := 1,
    containers := [recA, recB], all_flag := true, status_message := "" }

/-- A state with the `ps -a` command highlighted. -/
def stPsA : AppState :=
  { selected_command := 1, selected_container := 1,
    containers := [recA, recB], all_flag := false, status_message := "" }

/-! Helper lemmas. -/

theorem startsWithL_self (l : List Char) : startsWithL l l = true := by
  induction l with
  | nil => rfl
  | cons a as ih => simp [startsWithL, ih]

theorem startsWithL_append_right (p e : List Char) : startsWithL p (p ++ e) = true := by
  induction p with
  | nil => rfl
  | cons a as ih => simp [startsWithL, ih]

theorem containsL_append_left (a p : List Char) : containsL p (a ++ p) = true := by
  induction a with
  | nil =>
      cases p with
      | nil => rfl
      | cons c cs => simp [containsL, startsWithL_self]
  | cons x xs ih => simp [containsL, ih]

theorem strContains_append (a b : String) : strContains (a ++ b) b = true := by
  obtain ⟨la⟩ := a
  obtain ⟨lb⟩ := b
  exact containsL_append_left la lb

theorem strStartsWith_append (p e : String) : strStartsWith (p ++ e) p = true := by
  obtain ⟨lp⟩ := p
  obtain ⟨le⟩ := e
  exact startsWithL_append_right lp le

theorem enterStop_eq_shortcut : enterStopHandler = stopShortcutHandler := rfl

theorem stopShortcutHandler_frame (env : DockerEnv) (st : AppState) :
    (stopShortcutHandler env st).containers = st.containers ∧
    (stopShortcutHandler env st).selected_command = st.selected_command ∧
    (stopShortcutHandler env st).selected_container = st.selected_container ∧
    (stopShortcutHandler env st).all_flag = st.all_flag := by
  unfold stopShortcutHandler
  split
  · dsimp only
    split <;> simp
  · simp

theorem pruneHandler_frame (env : DockerEnv) (st : AppState) :
    (pruneHandler env st).containers = st.containers ∧
    (pruneHandler env st).selected_command = st.selected_command ∧
    (pruneHandler env st).selected_container = st.selected_container ∧
    (pruneHandler env st).all_flag = st.all_flag := by
  unfold pruneHandler
  split <;> simp

theorem handleKey_down_eq (env : DockerEnv) (st : AppState) :
    handleKey env st KeyCode.down =
      StepResult.next
        (if st.selected_container < st.containers.length - 1 then
          { st with selected_container := st.selected_container + 1 }
        else st) := rfl

theorem handleKey_up_eq (env : DockerEnv) (st : AppState) :
    handleKey env st KeyCode.up =
      StepResult.next
        (if st.selected_container > 0 then
          { st with selected_container := st.selected_container - 1 }
        else st) := rfl

theorem handleKey_right_eq (env : DockerEnv) (st : AppState) :
    handleKey env st KeyCode.right =
      StepResult.next
        { st with selected_command := (st.selected_command + 1) % commands.length } := rfl

theorem handleKey_left_eq (env : DockerEnv) (st : AppState) :
    handleKey env st KeyCode.left =
      StepResult.next
        (if st.selected_command = 0 then
          { st with selected_command := commands.length - 1 }
        else { st with selected_command := st.selected_command - 1 }) := rfl

theorem handleKey_charS_eq (env : DockerEnv) (st : AppState) :
    handleKey env st (KeyCode.char 's') =
      StepResult.next (stopShortcutHandler env st) := rfl

theorem applyKeys_nil (env : DockerEnv) (st : AppState) :
    applyKeys env st [] = StepResult.next st := rfl

theorem applyKeys_cons (env : DockerEnv) (st : AppState) (k : KeyCode) (ks : List KeyCode) :
    applyKeys env st (k :: ks) =
      match handleKey env st k with
      | StepResult.next st1 => applyKeys env st1 ks
      | r => r := rfl

theorem LR_step (env : DockerEnv) (st : AppState) (k : KeyCode)
    (hk : k = KeyCode.left ∨ k = KeyCode.right) (h : st.selected_command < 4) :
    ∃ st1, handleKey env st k = StepResult.next st1 ∧ st1.selected_command < 4 ∧
      st1.selected_container = st.selected_container ∧
      st1.containers = st.containers ∧ st1.all_flag = st.all_flag ∧
      st1.status_message = st.status_message := by
  rcases hk with hk | hk <;> subst hk
  · rw [handleKey_left_eq]
    split
    · exact ⟨_, rfl, by simp [commands], by simp, by simp, by simp, by simp⟩
    · exact ⟨_, rfl, by simp; omega, by simp, by simp, by simp, by simp⟩
  · rw [handleKey_right_eq]
    exact ⟨_, rfl, by simp [commands]; omega, by simp, by simp, by simp, by simp⟩

theorem LR_bound (env : DockerEnv) (keys : List KeyCode) :
    ∀ st st', st.selected_command < 4 →
      (∀ k ∈ keys, k = KeyCode.left ∨ k = KeyCode.right) →
      applyKeys env st keys = StepResult.next st' → st'.selected_command < 4 := by
  induction keys with
  | nil =>
      intro st st' h _ happ
      rw [applyKeys_nil] at happ
      cases happ
      exact h
  | cons k ks ih =>
      intro st st' h hall happ
      obtain ⟨st1, hstep, h1, -, -, -, -⟩ :=
        LR_step env st k (hall k (by simp)) h
      rw [applyKeys_cons, hstep] at happ
      exact ih st1 st' h1 (fun k2 hk2 => hall k2 (by simp [hk2])) happ

theorem UD_step (env : DockerEnv) (st : AppState) (k : KeyCode)
    (hk : k = KeyCode.up ∨ k = KeyCode.down) :
    ∃ st1, handleKey env st k = StepResult.next st1 ∧
      st1.containers = st.containers ∧
      st1.selected_command = st.selected_command ∧
      st1.all_flag = st.all_flag ∧ st1.status_message = st.status_message ∧
      (st.selected_container < st.containers.length →
        st1.selected_container < st.containers.length) ∧
      (st.containers = [] → st.selected_container = 0 → st1 = st) := by
  rcases hk with hk | hk <;> subst hk
  · rw [handleKey_up_eq]
    by_cases h0 : st.selected_container > 0
    · rw [if_pos h0]
      refine ⟨_, rfl, rfl, rfl, rfl, rfl, ?_, ?_⟩
      · intro h
        show st.selected_container - 1 < st.containers.length
        omega
      · intro _ hsel
        exact absurd hsel (by omega)
    · rw [if_neg h0]
      exact ⟨_, rfl, rfl, rfl, rfl, rfl, fun h => h, fun _ _ => rfl⟩
  · rw [handleKey_down_eq]
    by_cases hlt : st.selected_container < st.containers.length - 1
    · rw [if_pos hlt]
      refine ⟨_, rfl, rfl, rfl, rfl, rfl, ?_, ?_⟩
      · intro h
        show st.selected_container + 1 < st.containers.length
        omega
      · intro hc _
        rw [hc] at hlt
        simp at hlt
    · rw [if_neg hlt]
      exact ⟨_, rfl, rfl, rfl, rfl, rfl, fun h => h, fun _ _ => rfl⟩

theorem UD_closed (env : DockerEnv) (keys : List KeyCode) :
    ∀ st st', (∀ k ∈ keys, k = KeyCode.up ∨ k = KeyCode.down) →
      applyKeys env st keys = StepResult.next st' →
      (st.selected_container < st.containers.length →
        st'.containers = st.containers ∧
          st'.selected_container < st.containers.length) ∧
      (st.containers = [] → st.selected_container = 0 → st' = st) := by
  induction keys with
  | nil =>
      intro st st' _ happ
      rw [applyKeys_nil] at happ
      cases happ
      exact ⟨fun h => ⟨rfl, h⟩, fun _ _ => rfl⟩
  | cons k ks ih =>
      intro st st' hall happ
      obtain ⟨st1, hstep, hc, -, -, -, hbound, hempty⟩ :=
        UD_step env st k (hall k (by simp))
      rw [applyKeys_cons, hstep] at happ
      have hrest := ih st1 st' (fun k2 hk2 => hall k2 (by simp [hk2])) happ
      constructor
      · intro hin
        obtain ⟨h1, h2⟩ := hrest.1 (by rw [hc]; exact hbound hin)
        exact ⟨by rw [h1, hc], by rw [← hc]; exact h2⟩
      · intro he h0
        rw [hempty he h0] at hrest
        exact hrest.2 he h0

theorem handleKey_enter_eq (env : DockerEnv) (st : AppState) :
    handleKey env st KeyCode.enter =
      match commands.getD st.selected_command "" with
      | "stop" => StepResult.next (enterStopHandler env st)
      | "prune" => StepResult.next (pruneHandler env st)
      | "ps" => StepResult.next { st with all_flag := false, selected_container := 0 }
      | "ps -a" => StepResult.next { st with all_flag := true, selected_container := 0 }
      | _ => StepResult.next st := rfl

theorem handleKey_char_eq (env : DockerEnv) (st : AppState) (c : Char) :
    handleKey env st (KeyCode.char c) =
      if c = 'q' then StepResult.quit
      else if c = 's' then StepResult.next (stopShortcutHandler env st)
      else StepResult.next st := rfl

theorem handleKey_other_eq (env : DockerEnv) (st : AppState) :
    handleKey env st KeyCode.other = StepResult.next st := rfl

theorem stopShortcutHandler_empty (env : DockerEnv) (st : AppState)
    (he : st.containers = []) : stopShortcutHandler env st = st := by
  have hn : st.containers.get? st.selected_container = none := by
    rw [he]
    cases st.selected_container <;> rfl
  unfold stopShortcutHandler
  rw [hn]

theorem handleKey_preserves_RowInv (env : DockerEnv) (st : AppState) (k : KeyCode)
    (st' : AppState) (hinv : RowInv st)
    (h : handleKey env st k = StepResult.next st') : RowInv st' := by
  cases k with
  | char c =>
      rw [handleKey_char_eq] at h
      by_cases hq : c = 'q'
      · rw [if_pos hq] at h
        cases h
      · rw [if_neg hq] at h
        by_cases hs : c = 's'
        · rw [if_pos hs] at h
          injection h with h
          subst h
          intro hne
          obtain ⟨hc, -, hsel, -⟩ := stopShortcutHandler_frame env st
          rw [hc] at hne ⊢
          rw [hsel]
          exact hinv hne
        · rw [if_neg hs] at h
          injection h with h
          subst h
          exact hinv
  | down =>
      rw [handleKey_down_eq] at h
      injection h with h
      subst h
      split
      · next hlt =>
          intro _
          show st.selected_container + 1 < st.containers.length
          omega
      · exact hinv
  | up =>
      rw [handleKey_up_eq] at h
      injection h with h
      subst h
      split
      · intro hne
        have := hinv hne
        show st.selected_container - 1 < st.containers.length
        omega
      · exact hinv
  | right =>
      rw [handleKey_right_eq] at h
      injection h with h
      subst h
      exact hinv
  | left =>
      rw [handleKey_left_eq] at h
      injection h with h
      subst h
      split <;> exact hinv
  | enter =>
      rw [handleKey_enter_eq] at h
      split at h <;> injection h with h <;> subst h
      · intro hne
        obtain ⟨hc, -, hsel, -⟩ := stopShortcutHandler_frame env st
        rw [enterStop_eq_shortcut] at hne ⊢
        rw [hc] at hne ⊢
        rw [hsel]
        exact hinv hne
      · intro hne
        obtain ⟨hc, -, hsel, -⟩ := pruneHandler_frame env st
        rw [hc] at hne ⊢
        rw [hsel]
        exact hinv hne
      · intro hne
        show 0 < st.containers.length
        exact List.length_pos.mpr hne
      · intro hne
        show 0 < st.containers.length
        exact List.length_pos.mpr hne
      · exact hinv
  | other =>
      rw [handleKey_other_eq] at h
      injection h with h
      subst h
      exact hinv

/-! Claim theorems. -/

/-- C5: for every command-highlight index below the menu length and every
sequence of left/right key events, the highlighted command index remains
within `[0, 4)`; and applying the right-key transition four times returns
the state — in particular the index — to its original value. -/
theorem cmd_cycle_closed :
    (∀ (env : DockerEnv) (st : AppState) (keys : List KeyCode) (st' : AppState),
        st.selected_command < 4 →
        (∀ k ∈ keys, k = KeyCode.left ∨ k = KeyCode.right) →
        applyKeys env st keys = StepResult.next st' →
        st'.selected_command < 4) ∧
    (∀ (env : DockerEnv) (st : AppState), st.selected_command < 4 →
        applyKeys env st [KeyCode.right, KeyCode.right, KeyCode.right, KeyCode.right] =
          StepResult.next st) := by
  constructor
  · intro env st keys st' h hall happ
    exact LR_bound env keys st st' h hall happ
  · intro env st h
    obtain ⟨c, r, cs, f, m⟩ := st
    have hstep : applyKeys env ⟨c, r, cs, f, m⟩
        [KeyCode.right, KeyCode.right, KeyCode.right, KeyCode.right] =
        StepResult.next ⟨((((c + 1) % 4 + 1) % 4 + 1) % 4 + 1) % 4, r, cs, f, m⟩ := rfl
    rw [hstep]
    have hc : ((((c + 1) % 4 + 1) % 4 + 1) % 4 + 1) % 4 = c := by
      simp only [AppState.mk.injEq] at h ⊢
      omega
    rw [hc]

/-- Witness for C5 at the concrete state `stStop`. -/
theorem cmd_cycle_closed_witness :
    ({ stStop with selected_command := 1 } : AppState).selected_command < 4 ∧
    applyKeys envErr stStop [KeyCode.right, KeyCode.right, KeyCode.right, KeyCode.right] =
      StepResult.next stStop :=
  ⟨cmd_cycle_closed.1 envErr stStop [KeyCode.left] { stStop with selected_command := 1 }
      (by decide) (by decide) rfl,
   cmd_cycle_closed.2 envErr stStop (by decide)⟩

/-- C6: for a fixed container list and any sequence of up/down key events,
the highlighted row index stays within `[0, N)` (and the list itself is
untouched); with an empty list and index 0 the state is inert; a down press
at the last row and an up press at row 0 leave the state unchanged
(clamping, no wraparound). -/
theorem row_nav_clamped :
    (∀ (env : DockerEnv) (st : AppState) (keys : List KeyCode) (st' : AppState),
        (∀ k ∈ keys, k = KeyCode.up ∨ k = KeyCode.down) →
        st.selected_container < st.containers.length →
        applyKeys env st keys = StepResult.next st' →
        st'.containers = st.containers ∧
          st'.selected_container < st.containers.length) ∧
    (∀ (env : DockerEnv) (st : AppState) (keys : List KeyCode) (st' : AppState),
        (∀ k ∈ keys, k = KeyCode.up ∨ k = KeyCode.down) →
        st.containers = [] → st.selected_container = 0 →
        applyKeys env st keys = StepResult.next st' → st' = st) ∧
    (∀ (env : DockerEnv) (st : AppState), st.containers ≠ [] →
        st.selected_container = st.containers.length - 1 →
        handleKey env st KeyCode.down = StepResult.next st) ∧
    (∀ (env : DockerEnv) (st : AppState), st.selected_container = 0 →
        handleKey env st KeyCode.up = StepResult.next st) := by
  refine ⟨?_, ?_, ?_, ?_⟩
  · intro env st keys st' hall hin happ
    exact (UD_closed env keys st st' hall happ).1 hin
  · intro env st keys st' hall he h0 happ
    exact (UD_closed env keys st st' hall happ).2 he h0
  · intro env st _ hsel
    rw [handleKey_down_eq, if_neg (by omega)]
  · intro env st h0
    rw [handleKey_up_eq, if_neg (by omega)]

/-- Witness for C6 at concrete two-container and empty states. -/
theorem row_nav_clamped_witness :
    (({ stStop with selected_container := 1 } : AppState).containers = stStop.containers ∧
      ({ stStop with selected_container := 1 } : AppState).selected_container <
        stStop.containers.length) ∧
    stEmptyStop = stEmptyStop ∧
    handleKey envErr stPs KeyCode.down = StepResult.next stPs ∧
    handleKey envErr stStop KeyCode.up = StepResult.next stStop :=
  ⟨row_nav_clamped.1 envErr stStop [KeyCode.down] { stStop with selected_container := 1 }
      (by decide) (by decide) rfl,
   row_nav_clamped.2.1 envErr stEmptyStop [KeyCode.up, KeyCode.down] stEmptyStop
      (by decide) rfl rfl rfl,
   row_nav_clamped.2.2.1 envErr stPs (by decide) (by decide),
   row_nav_clamped.2.2.2 envErr stStop rfl⟩

/-- C9: whenever the `stop` command is the highlighted command, the
immediate-stop shortcut key and the activate key perform the identical state
transition. -/
theorem stop_paths_equivalent :
    ∀ (env : DockerEnv) (st : AppState),
      commands.getD st.selected_command "" = "stop" →
      handleKey env st (KeyCode.char 's') = handleKey env st KeyCode.enter := by
  intro env st h
  rw [handleKey_char_eq, if_neg (by decide), if_pos rfl, handleKey_enter_eq, h]
  rfl

/-- Witness for C9 at the concrete state `stStop`. -/
theorem stop_paths_equivalent_witness :
    handleKey envExit1 stStop (KeyCode.char 's') = handleKey envExit1 stStop KeyCode.enter :=
  stop_paths_equivalent envExit1 stStop rfl

/-- C10: the immediate-stop shortcut, the activated stop command, and the
activated prune command change at most the status message; with an empty
container list the stop paths leave the entire state unchanged. -/
theorem stop_prune_frame :
    (∀ (env : DockerEnv) (st st' : AppState),
        handleKey env st (KeyCode.char 's') = StepResult.next st' →
        st'.containers = st.containers ∧ st'.selected_command = st.selected_command ∧
        st'.selected_container = st.selected_container ∧ st'.all_flag = st.all_flag) ∧
    (∀ (env : DockerEnv) (st st' : AppState),
        commands.getD st.selected_command "" = "stop" →
        handleKey env st KeyCode.enter = StepResult.next st' →
        st'.containers = st.containers ∧ st'.selected_command = st.selected_command ∧
        st'.selected_container = st.selected_container ∧ st'.all_flag = st.all_flag) ∧
    (∀ (env : DockerEnv) (st st' : AppState),
        commands.getD st.selected_command "" = "prune" →
        handleKey env st KeyCode.enter = StepResult.next st' →
        st'.containers = st.containers ∧ st'.selected_command = st.selected_command ∧
        st'.selected_container = st.selected_container ∧ st'.all_flag = st.all_flag) ∧
    (∀ (env : DockerEnv) (st : AppState), st.containers = [] →
        handleKey env st (KeyCode.char 's') = StepResult.next st ∧
        (commands.getD st.selected_command "" = "stop" →
          handleKey env st KeyCode.enter = StepResult.next st)) := by
  refine ⟨?_, ?_, ?_, ?_⟩
  · intro env st st' h
    rw [handleKey_char_eq, if_neg (by decide), if_pos rfl] at h
    injection h with h
    subst h
    exact stopShortcutHandler_frame env st
  · intro env st st' hc h
    rw [handleKey_enter_eq, hc] at h
    have h2 : StepResult.next (enterStopHandler env st) = StepResult.next st' := h
    injection h2 with h2
    subst h2
    rw [enterStop_eq_shortcut]
    exact stopShortcutHandler_frame env st
  · intro env st st' hc h
    rw [handleKey_enter_eq, hc] at h
    have h2 : StepResult.next (pruneHandler env st) = StepResult.next st' := h
    injection h2 with h2
    subst h2
    exact pruneHandler_frame env st
  · intro env st he
    constructor
    · rw [handleKey_char_eq, if_neg (by decide), if_pos rfl,
        stopShortcutHandler_empty env st he]
    · intro hc
      rw [handleKey_enter_eq, hc]
      show StepResult.next (enterStopHandler env st) = _
      rw [enterStop_eq_shortcut, stopShortcutHandler_empty env st he]

/-- Witness for C10 at concrete states. -/
theorem stop_prune_frame_witness :
    (({ stStop with status_message := "Stopped container " ++ recA.id } : AppState).containers =
        stStop.containers ∧
      ({ stStop with status_message := "Stopped container " ++ recA.id } : AppState).selected_command =
        stStop.selected_command ∧
      ({ stStop with status_message := "Stopped container " ++ recA.id } : AppState).selected_container =
        stStop.selected_container ∧
      ({ stStop with status_message := "Stopped container " ++ recA.id } : AppState).all_flag =
        stStop.all_flag) ∧
    (handleKey envErr stEmptyStop (KeyCode.char 's') = StepResult.next stEmptyStop ∧
      (commands.getD stEmptyStop.selected_command "" = "stop" →
        handleKey envErr stEmptyStop KeyCode.enter = StepResult.next stEmptyStop)) :=
  ⟨stop_prune_frame.1 envExit1 stStop
      { stStop with status_message := "Stopped container " ++ recA.id } rfl,
   stop_prune_frame.2.2.2 envErr stEmptyStop rfl⟩

/-- C1 counterexample: when the spawn of the external tool fails, the source's
`.expect("Failed to execute docker ps")` panics.  `get_docker_ps_output` does
not return the empty sequence `some []`; it yields the panic (`none`), and the
loop iteration that called it propagates the panic instead of continuing. -/
theorem ps_refresh_spawn_failure_panics :
    envErr.run (dockerPsArgs false) = Except.error "No such file or directory (os error 2)" ∧
    get_docker_ps_output envErr false = none ∧
    get_docker_ps_output envErr false ≠ some [] ∧
    runIteration envErr initialState none =
      StepResult.panicked "Failed to execute docker ps" := by
  refine ⟨rfl, rfl, ?_, rfl⟩
  decide

/-- C1 amended: when the external tool starts but produces no usable output,
the refresh returns the empty sequence without failing; when the tool cannot
be started, `get_docker_ps_output` panics (the `.expect` call) instead of
returning an empty sequence. -/
theorem ps_refresh_amended :
    (∀ (env : DockerEnv) (all : Bool) (out : CmdOutput),
        env.run (dockerPsArgs all) = Except.ok out →
        decodeLines out.stdout = [] →
        get_docker_ps_output env all = some []) ∧
    (∀ (env : DockerEnv) (all : Bool) (e : String),
        env.run (dockerPsArgs all) = Except.error e →
        get_docker_ps_output env all = none) := by
  constructor
  · intro env all out hok hdec
    unfold get_docker_ps_output
    rw [hok]
    show some (decodeLines out.stdout) = some []
    rw [hdec]
  · intro env all e herr
    unfold get_docker_ps_output
    rw [herr]

/-- Witness for the amended C1 at concrete environments. -/
theorem ps_refresh_amended_witness :
    get_docker_ps_output envOkEmpty false = some [] ∧
    get_docker_ps_output envErr true = none :=
  ⟨ps_refresh_amended.1 envOkEmpty false { exit_code := 0, stdout := [] } rfl rfl,
   ps_refresh_amended.2 envErr true "No such file or directory (os error 2)" rfl⟩

/-- C2 counterexample: a stop invocation whose process completes with exit
code 1 — a failing invocation in the claim's sense — still produces the
success message containing the identifier, not a failure description: the
source only distinguishes `Ok`/`Err` of the spawn and never inspects the exit
code. -/
theorem stop_nonzero_exit_reported_success :
    envExit1.run ["stop", "abc123"] = Except.ok { exit_code := 1, stdout := [] } ∧
    handleKey envExit1 stStop (KeyCode.char 's') =
      StepResult.next { stStop with status_message := "Stopped container abc123" } ∧
    strStartsWith "Stopped container abc123" "Failed to stop container: " = false ∧
    strContains "Stopped container abc123" "Failed" = false := by
  exact ⟨rfl, by decide, by decide, by decide⟩

/-- C2 amended: success of a stop invocation is the spawn succeeding
(regardless of the exit code).  On spawn success the status message contains
the target identifier; on spawn failure it is the failure description; in
both cases the handler yields a `next` state (the loop continues), and the
activate-key stop branch behaves identically. -/
theorem stop_status_amended :
    ∀ (env : DockerEnv) (st : AppState) (c : ContainerInfo),
      st.containers.get? st.selected_container = some c →
      ((∀ out : CmdOutput, env.run ["stop", c.id] = Except.ok out →
          handleKey env st (KeyCode.char 's') =
            StepResult.next { st with status_message := "Stopped container " ++ c.id } ∧
          strContains ("Stopped container " ++ c.id) c.id = true) ∧
       (∀ e : String, env.run ["stop", c.id] = Except.error e →
          handleKey env st (KeyCode.char 's') =
            StepResult.next { st with status_message := "Failed to stop container: " ++ e } ∧
          strStartsWith ("Failed to stop container: " ++ e) "Failed to stop container: " = true) ∧
       (commands.getD st.selected_command "" = "stop" →
          handleKey env st KeyCode.enter = handleKey env st (KeyCode.char 's'))) := by
  intro env st c hget
  have hunfold : stopShortcutHandler env st =
      match env.run ["stop", c.id] with
      | Except.ok _ => { st with status_message := "Stopped container " ++ c.id }
      | Except.error e => { st with status_message := "Failed to stop container: " ++ e } := by
    unfold stopShortcutHandler
    rw [hget]
  refine ⟨?_, ?_, ?_⟩
  · intro out hok
    rw [handleKey_char_eq, if_neg (by decide), if_pos rfl, hunfold, hok]
    exact ⟨rfl, strContains_append _ _⟩
  · intro e herr
    rw [handleKey_char_eq, if_neg (by decide), if_pos rfl, hunfold, herr]
    exact ⟨rfl, strStartsWith_append _ _⟩
  · intro hc
    rw [handleKey_enter_eq, hc]
    rfl

/-- Witness for the amended C2 at concrete environments and state. -/
theorem stop_status_amended_witness :
    (handleKey envExit1 stStop (KeyCode.char 's') =
        StepResult.next { stStop with status_message := "Stopped container " ++ recA.id } ∧
      strContains ("Stopped container " ++ recA.id) recA.id = true) ∧
    (handleKey envErr stStop (KeyCode.char 's') =
        StepResult.next { stStop with status_message :=
          "Failed to stop container: " ++ "No such file or directory (os error 2)" } ∧
      strStartsWith ("Failed to stop container: " ++ "No such file or directory (os error 2)")
        "Failed to stop container: " = true) ∧
    handleKey envExit1 stStop KeyCode.enter = handleKey envExit1 stStop (KeyCode.char 's') :=
  ⟨(stop_status_amended envExit1 stStop recA rfl).1 { exit_code := 1, stdout := [] } rfl,
   (stop_status_amended envErr stStop recA rfl).2.1 "No such file or directory (os error 2)" rfl,
   (stop_status_amended envExit1 stStop recA rfl).2.2 rfl⟩

/-- C3 counterexample: a reachable two-iteration trace from the initial state
in which the per-iteration refresh shrinks the list below the highlighted
index: refresh two containers, press down (index 1), then refresh one
container — the cached list is non-empty and the highlighted index 1 is out
of bounds. -/
theorem row_invariant_broken_by_refresh :
    runSteps initialState [(envPs2, some KeyCode.down), (envPs1, none)] =
      StepResult.next { selected_command := 0, selected_container := 1,
                        containers := [recA], all_flag := false, status_message := "" } ∧
    ¬ RowInv { selected_command := 0, selected_container := 1,
               containers := [recA], all_flag := false, status_message := "" } := by
  constructor
  · rfl
  · intro h
    exact absurd (h (by decide)) (by decide)

/-- C3 amended: every key dispatch — including the clamped, non-wrapping
up/down moves — preserves the row-highlight invariant, and a loop iteration
preserves it provided the refreshed list is empty or still longer than the
highlighted index; the refresh itself does not adjust the index, so a
strictly shorter non-empty refreshed list can leave the index out of
bounds. -/
theorem row_invariant_amended :
    (∀ (env : DockerEnv) (st : AppState) (k : KeyCode) (st' : AppState),
        RowInv st → handleKey env st k = StepResult.next st' → RowInv st') ∧
    (∀ (env : DockerEnv) (st : AppState) (key : Option KeyCode) (st' : AppState),
        RowInv st →
        (∀ out : CmdOutput, env.run (dockerPsArgs st.all_flag) = Except.ok out →
            decodeLines out.stdout = [] ∨
              st.selected_container < (decodeLines out.stdout).length) →
        runIteration env st key = StepResult.next st' → RowInv st') := by
  refine ⟨fun env st k st' hinv h => handleKey_preserves_RowInv env st k st' hinv h, ?_⟩
  intro env st key st' hinv hout hrun
  unfold runIteration at hrun
  dsimp only at hrun
  split at hrun
  · cases hps : get_docker_ps_output env st.all_flag with
    | none => rw [hps] at hrun; cases hrun
    | some cs =>
        rw [hps] at hrun
        have hcs : cs = [] ∨ st.selected_container < cs.length := by
          unfold get_docker_ps_output at hps
          cases hr : env.run (dockerPsArgs st.all_flag) with
          | error e => rw [hr] at hps; cases hps
          | ok out =>
              rw [hr] at hps
              injection hps with hps
              rw [← hps]
              exact hout out hr
        have hinv1 : RowInv { st with containers := cs } := by
          intro hne
          rcases hcs with hcs | hcs
          · exact absurd hcs hne
          · exact hcs
        cases key with
        | none =>
            injection hrun with hrun
            subst hrun
            exact hinv1
        | some k => exact handleKey_preserves_RowInv env _ k st' hinv1 hrun
  · cases key with
    | none =>
        injection hrun with hrun
        subst hrun
        exact hinv
    | some k => exact handleKey_preserves_RowInv env st k st' hinv hrun

/-- Witness for the amended C3 at concrete states. -/
theorem row_invariant_amended_witness :
    RowInv { stStop with selected_container := 1 } ∧
    RowInv { initialState with containers := [recA, recB] } :=
  ⟨row_invariant_amended.1 envErr stStop KeyCode.down { stStop with selected_container := 1 }
      (fun _ => by decide) rfl,
   row_invariant_amended.2 envPs2 initialState none { initialState with containers := [recA, recB] }
      (fun h => absurd rfl h)
      (fun out hok => by
        have hok2 : Except.ok { exit_code := 0, stdout := [lineA, lineB] } = Except.ok out := hok
        injection hok2 with h2
        rw [← h2]
        right
        decide)
      rfl⟩

/-- C4 counterexample: a schema-complete line whose `ID` field is the empty
string decodes successfully into a record with an empty identifier — the
decoder never checks non-emptiness. -/
theorem decode_empty_id_survives :
    serde_from_str badIdLine = some emptyIdRec ∧ emptyIdRec.id = "" := by
  exact ⟨by decide, rfl⟩

/-- C4 amended: any line whose decoding fails yields no record at all (no
partial records are retained), and a record that survives decoding came from
a JSON-object line whose `ID` field is captured verbatim as the identifier —
which may therefore be empty. -/
theorem decode_amended :
    (∀ (l : RawLine) (r : ContainerInfo), serde_from_str l = some r →
        ∃ fields, l = RawLine.json (Json.obj fields) ∧
          getStrField fields "ID" = some r.id) ∧
    (∀ (pre post : List RawLine) (l : RawLine), serde_from_str l = none →
        decodeLines (pre ++ l :: post) = decodeLines pre ++ decodeLines post) := by
  constructor
  · intro l r h
    cases l with
    | notJson t => simp [serde_from_str] at h
    | json v =>
        cases v with
        | obj fields =>
            refine ⟨fields, rfl, ?_⟩
            have h2 : decodeContainerInfo (Json.obj fields) = some r := h
            simp only [decodeContainerInfo] at h2
            rcases hID : getStrField fields "ID" with _ | id
            · rw [hID] at h2
              simp at h2
            · rw [hID] at h2
              rcases hI2 : getStrField fields "Image" with _ | image
              · rw [hI2] at h2
                simp at h2
              · rw [hI2] at h2
                rcases hI3 : getStrField fields "Command" with _ | command
                · rw [hI3] at h2
                  simp at h2
                · rw [hI3] at h2
                  rcases hI4 : getStrField fields "CreatedAt" with _ | created_at
                  · rw [hI4] at h2
                    simp at h2
                  · rw [hI4] at h2
                    rcases hI5 : getStrField fields "Status" with _ | status
                    · rw [hI5] at h2
                      simp at h2
                    · rw [hI5] at h2
                      rcases hI6 : getStrField fields "Ports" with _ | ports
                      · rw [hI6] at h2
                        simp at h2
                      · rw [hI6] at h2
                        rcases hI7 : getStrField fields "Names" with _ | names
                        · rw [hI7] at h2
                          simp at h2
                        · rw [hI7] at h2
                          have h3 : some (ContainerInfo.mk id image command
                              created_at status ports names) = some r := h2
                          injection h3 with h3
                          subst h3
                          rfl
        | null => simp [serde_from_str, decodeContainerInfo] at h
        | bool b => simp [serde_from_str, decodeContainerInfo] at h
        | num n => simp [serde_from_str, decodeContainerInfo] at h
        | str s => simp [serde_from_str, decodeContainerInfo] at h
        | arr elems => simp [serde_from_str, decodeContainerInfo] at h
  · intro pre post l h
    simp [decodeLines, List.filterMap_append, List.filterMap_cons, h]

/-- Witness for the amended C4 at concrete lines. -/
theorem decode_amended_witness :
    (∃ fields, lineA = RawLine.json (Json.obj fields) ∧
        getStrField fields "ID" = some recA.id) ∧
    decodeLines ([lineB] ++ malformedLine :: [lineA]) =
      decodeLines [lineB] ++ decodeLines [lineA] :=
  ⟨decode_amended.1 lineA recA (by decide),
   decode_amended.2 [lineB] [lineA] malformedLine rfl⟩

/-- C7: the batch decoder is the ordered concatenation of the per-line
decodes: it distributes over appending, a successfully decoding line yields
exactly its record, a malformed line yields no record and does not disturb
the decoding of the lines around it, and the whole batch equals the
order-preserving flattening of the per-line decode results. -/
theorem decode_batch_ordered :
    (∀ l1 l2 : List RawLine, decodeLines (l1 ++ l2) = decodeLines l1 ++ decodeLines l2) ∧
    (∀ (l : RawLine) (r : ContainerInfo), serde_from_str l = some r →
        decodeLines [l] = [r]) ∧
    (∀ l : RawLine, serde_from_str l = none → decodeLines [l] = []) ∧
    (∀ (pre post : List RawLine) (l : RawLine), serde_from_str l = none →
        decodeLines (pre ++ l :: post) = decodeLines pre ++ decodeLines post) ∧
    (∀ lines : List RawLine,
        decodeLines lines = List.reduceOption (lines.map serde_from_str)) := by
  refine ⟨?_, ?_, ?_, ?_, ?_⟩
  · intro l1 l2
    simp [decodeLines, List.filterMap_append]
  · intro l r h
    simp [decodeLines, List.filterMap_cons, h]
  · intro l h
    simp [decodeLines, List.filterMap_cons, h]
  · intro pre post l h
    simp [decodeLines, List.filterMap_append, List.filterMap_cons, h]
  · intro lines
    simp [decodeLines, List.reduceOption, List.filterMap_map]

/-- Witness for C7 at concrete lines. -/
theorem decode_batch_ordered_witness :
    decodeLines [lineB] = [recB] ∧
    decodeLines [missingFieldLine] = [] ∧
    decodeLines ([lineA] ++ missingFieldLine :: [lineB]) =
      decodeLines [lineA] ++ decodeLines [lineB] :=
  ⟨decode_batch_ordered.2.1 lineB recB (by decide),
   decode_batch_ordered.2.2.1 missingFieldLine (by decide),
   decode_batch_ordered.2.2.2.1 [lineA] [lineB] missingFieldLine (by decide)⟩

/-- C8: activating the list-running command clears the show-all flag and
resets the row highlight to 0; activating the list-all command sets the flag
and resets the highlight; a loop iteration with a listing command highlighted
refreshes from the external invocation built with the current flag; and that
invocation's argument list carries `-a` exactly when the flag is set. -/
theorem list_toggle_refresh :
    (∀ (env : DockerEnv) (st : AppState),
        commands.getD st.selected_command "" = "ps" →
        handleKey env st KeyCode.enter =
          StepResult.next { st with all_flag := false, selected_container := 0 }) ∧
    (∀ (env : DockerEnv) (st : AppState),
        commands.getD st.selected_command "" = "ps -a" →
        handleKey env st KeyCode.enter =
          StepResult.next { st with all_flag := true, selected_container := 0 }) ∧
    (∀ (env : DockerEnv) (st : AppState) (out : CmdOutput) (key : Option KeyCode),
        (commands.getD st.selected_command "" = "ps" ∨
          commands.getD st.selected_command "" = "ps -a") →
        env.run (dockerPsArgs st.all_flag) = Except.ok out →
        runIteration env st key =
          (match key with
           | none => StepResult.next { st with containers := decodeLines out.stdout }
           | some k => handleKey env { st with containers := decodeLines out.stdout } k)) ∧
    ("-a" ∈ dockerPsArgs true ∧ "-a" ∉ dockerPsArgs false) := by
  refine ⟨?_, ?_, ?_, by decide⟩
  · intro env st h
    rw [handleKey_enter_eq, h]
    rfl
  · intro env st h
    rw [handleKey_enter_eq, h]
    rfl
  · intro env st out key hcmd hok
    have hcond : (commands.getD st.selected_command "" == "ps" ||
        commands.getD st.selected_command "" == "ps -a") = true := by
      rcases hcmd with h | h <;> rw [h] <;> rfl
    unfold runIteration
    dsimp only
    rw [hcond]
    show (match get_docker_ps_output env st.all_flag with
          | none => StepResult.panicked "Failed to execute docker ps"
          | some cs =>
              match key with
              | none => StepResult.next { st with containers := cs }
              | some k => handleKey env { st with containers := cs } k) = _
    unfold get_docker_ps_output
    rw [hok]

/-- Witness for C8 at concrete states and environments. -/
theorem list_toggle_refresh_witness :
    handleKey envErr stPs KeyCode.enter =
      StepResult.next { stPs with all_flag := false, selected_container := 0 } ∧
    handleKey envErr stPsA KeyCode.enter =
      StepResult.next { stPsA with all_flag := true, selected_container := 0 } ∧
    runIteration envPs1 stPs none =
      (match (none : Option KeyCode) with
       | none => StepResult.next { stPs with containers := decodeLines [lineA] }
       | some k => handleKey envPs1 { stPs with containers := decodeLines [lineA] } k) :=
  ⟨list_toggle_refresh.1 envErr stPs rfl,
   list_toggle_refresh.2.1 envErr stPsA rfl,
   list_toggle_refresh.2.2.1 envPs1 stPs { exit_code := 0, stdout := [lineA] } none
      (Or.inl rfl) rfl⟩
